import Mathlib

set_option maxRecDepth 100000

/-!
# Shallow embedding of the LS8 CPU emulator (`src/ls8/cpu.py`)

The Python source mutates a `CPU` object in place; here the state is threaded
explicitly.  A Python exception escaping a method is modelled by the `err`
constructor of `StepRes`, which carries the state at the moment the exception
is raised (mutations performed before the raise persist, as they do in
Python).  Machine words are modelled as `Int`, matching Python's unbounded
integers; the source masks with `& 0xff` only where it actually does.
-/

/-- The ways execution of the reference emulator can abort: each constructor
is one Python exception class observable from `cpu.py`. `unimplementedOpcode`
is the specification's fault taxonomy entry; the reference never raises it
and it is included only so that statements can compare the reference's actual
faults against the specified one. -/
inductive Fault where
  | indexError : Fault
  | typeError : Fault
  | keyError : Fault
  | valueError : String → Fault
  | zeroDivisionError : Fault
  | unsupportedAluOperation : Fault
  | systemExit : Fault
  | unimplementedOpcode : Fault
deriving DecidableEq

deriving instance DecidableEq for Except

/-- The spec's `DivisionByZero` fault class.  The reference signals division
by zero as `ValueError("Cannot divide by 0")` (explicit check in DIV) or as
Python's built-in `ZeroDivisionError` (the unguarded `%` in MOD). -/
def Fault.isDivisionByZero (f : Fault) : Prop :=
  f = Fault.valueError "Cannot divide by 0" ∨ f = Fault.zeroDivisionError

-- Instruction set constants (`cpu.py` lines 7-40).
def ADD  : Int := 0b10100000
def AND  : Int := 0b10101000
def CALL : Int := 0b01010000
def CMP  : Int := 0b10100111
def DEC  : Int := 0b01100110
def DIV  : Int := 0b10100011
def HLT  : Int := 0b00000001
def INC  : Int := 0b01100101
def INT  : Int := 0b01010010
def IRET : Int := 0b00010011
def JEQ  : Int := 0b01010101
def JGE  : Int := 0b01011010
def JGT  : Int := 0b01010111
def JLE  : Int := 0b01011001
def JLT  : Int := 0b01011000
def JMP  : Int := 0b01010100
def JNE  : Int := 0b01010110
def LD   : Int := 0b10000011
def LDI  : Int := 0b10000010
def MOD  : Int := 0b10100100
def MUL  : Int := 0b10100010
def NOP  : Int := 0b00000000
def NOT  : Int := 0b01101001
def OR   : Int := 0b10101010
def POP  : Int := 0b01000110
def PRA  : Int := 0b01001000
def PRN  : Int := 0b01000111
def PUSH : Int := 0b01000101
def RET  : Int := 0b00010001
def SHL  : Int := 0b10101100
def SHR  : Int := 0b10101101
def ST8  : Int := 0b10000100  -- the source's `ST`; renamed to avoid Lean's `ST`
def SUB  : Int := 0b10100001
def XOR  : Int := 0b10101011

/-- Python `v & 0xff`, which for every integer equals `v mod 2^8`. -/
def mask8 (v : Int) : Int := v % 256

/-- Python `v >> n` on an `int`: arithmetic (floor) shift. -/
def pyShr (v : Int) (n : Nat) : Int := Int.fdiv v (2 ^ n)

/-- `instruction_reg >> OPERANDS_OFFSET` (line 208). -/
def numOperands (ir : Int) : Int := pyShr ir 6

/-- `(instruction_reg & ALU_MASK) >> ALU_OFFSET` (line 211). -/
def isAluOperation (ir : Int) : Int := pyShr (Int.land ir 0b00100000) 5

/-- `(instruction_reg & PC_MASK) >> PC_OFFSET` (line 239). -/
def setsPcFlag (ir : Int) : Int := pyShr (Int.land ir 0b00010000) 4

/-- A negative Python list index counts from the end: the index actually
used for a list of length `n`. -/
def pyShift (n : Nat) (i : Int) : Int :=
  if i < 0 then i + n else i

/-- Resolution of a Python list index for a list of length `n`: a negative
index counts from the end; an index out of `[-n, n)` raises `IndexError`. -/
def pyResolve (n : Nat) (i : Int) : Option Nat :=
  if 0 ≤ pyShift n i ∧ pyShift n i < n then some (pyShift n i).toNat else none

/-- Python `l[i]` on a list of ints. -/
def pyGet (l : List Int) (i : Int) : Except Fault Int :=
  match pyResolve l.length i with
  | some j => .ok (l.getD j 0)
  | none => .error .indexError

/-- Python `l[i] = v` on a list of ints. -/
def pySet (l : List Int) (i : Int) (v : Int) : Except Fault (List Int) :=
  match pyResolve l.length i with
  | some j => .ok (l.set j v)
  | none => .error .indexError

/-- The mutable state of `CPU.__init__`: `self.ram`, `self.reg`, `self.pc`.
(`self.running` is written once and never read; the dispatch table is fixed
at construction and is embedded as the function `dispatchTable` below.) -/
structure CPU where
  ram : List Int
  reg : List Int
  pc : Int
deriving DecidableEq

/-- Result of running a piece of the emulator: either the updated state, or
the Python exception that escaped together with the state at the raise. -/
inductive StepRes where
  | ok : CPU → StepRes
  | err : Fault → CPU → StepRes
deriving DecidableEq

/-- Sequencing: `r.andThen k` runs `k` on the state if `r` succeeded and
propagates the exception (with its state) otherwise. -/
def StepRes.andThen (r : StepRes) (k : CPU → StepRes) : StepRes :=
  match r with
  | .ok c => k c
  | .err f c => .err f c

/-- Run a read (which cannot mutate state) and continue with its value;
a read failure raises with the current state `c` unchanged. -/
def readK (c : CPU) (r : Except Fault Int) (k : Int → StepRes) : StepRes :=
  match r with
  | .ok v => k v
  | .error f => .err f c

/-- Run a list update and continue with the new list; a failure raises with
the current state `c` unchanged. -/
def writeK (c : CPU) (r : Except Fault (List Int)) (k : List Int → StepRes) : StepRes :=
  match r with
  | .ok l => k l
  | .error f => .err f c

/-- Run a state update and continue with the new state; a failure raises
with the current state `c` unchanged. -/
def stepK (c : CPU) (r : Except Fault CPU) (k : CPU → StepRes) : StepRes :=
  match r with
  | .ok c1 => k c1
  | .error f => .err f c

/-- `ram_read` (lines 86-87): `return self.ram[address]`. -/
def CPU.ramRead (c : CPU) (address : Int) : Except Fault Int :=
  pyGet c.ram address

/-- `ram_write` (lines 89-90): `self.ram[address] = value`. -/
def CPU.ramWrite (c : CPU) (address value : Int) : Except Fault CPU :=
  match pySet c.ram address value with
  | .ok l => .ok { c with ram := l }
  | .error f => .error f

/-- The `stack_pointer` property getter (lines 77-79): `return self.reg[7]`. -/
def CPU.spGet (c : CPU) : Except Fault Int :=
  pyGet c.reg 7

/-- The `stack_pointer` property setter (lines 81-84):
`value &= 0xff; self.reg[7] = value`. -/
def CPU.spSet (c : CPU) (value : Int) : Except Fault CPU :=
  match pySet c.reg 7 (mask8 value) with
  | .ok l => .ok { c with reg := l }
  | .error f => .error f

/-- `self.reg[b]` where `b` may be Python `None` (the default of `alu`):
indexing a list with `None` raises `TypeError`. -/
def CPU.regGetOpt (c : CPU) (b : Option Int) : Except Fault Int :=
  match b with
  | none => .error .typeError
  | some i => pyGet c.reg i

/-- `CPU.__init__` (lines 57-65): 256 zeroed ram cells, 8 zeroed registers,
`pc = 0`, and `stack_pointer = 0xF7` through the masking setter. -/
def initialCPU : CPU :=
  { ram := List.replicate 256 0
    reg := (List.replicate 8 0).set 7 (mask8 0xF7)
    pc := 0 }

/-- `hlt` (lines 168-169): `sys.exit()` raises `SystemExit`, which nothing in
`cpu.py` catches, so it terminates the hosting process. -/
def CPU.hlt (c : CPU) : StepRes :=
  .err .systemExit c

/-- `call` (lines 171-176): `self.stack_pointer -= 1` (getter, subtract,
masking setter); `self.ram_write(self.stack_pointer, self.pc + 2)`;
`self.pc = self.reg[a]`. -/
def CPU.call (c : CPU) (a : Int) : StepRes :=
  readK c c.spGet fun sp =>
  stepK c (c.spSet (sp - 1)) fun c1 =>
  readK c1 c1.spGet fun sp1 =>
  stepK c1 (c1.ramWrite sp1 (c1.pc + 2)) fun c2 =>
  readK c2 (pyGet c2.reg a) fun v =>
  .ok { c2 with pc := v }

/-- `ldi` (lines 178-179): `self.reg[a] = value` — no mask. -/
def CPU.ldi (c : CPU) (a value : Int) : StepRes :=
  writeK c (pySet c.reg a value) fun l =>
  .ok { c with reg := l }

/-- The statement `self.stack_pointer += 1` that ends both `ret` (line 184)
and `pop` (line 188): getter, add one, masking setter. -/
def CPU.spInc (c : CPU) : StepRes :=
  readK c c.spGet fun sp =>
  stepK c (c.spSet (sp + 1)) fun c1 =>
  .ok c1

/-- `ret` (lines 181-184): `self.pc = self.ram_read(self.stack_pointer)`;
then `self.stack_pointer += 1` (`CPU.spInc`). -/
def CPU.ret (c : CPU) : StepRes :=
  readK c c.spGet fun sp =>
  readK c (c.ramRead sp) fun v =>
  CPU.spInc { c with pc := v }

/-- `pop` (lines 186-188): `self.reg[a] = self.ram_read(self.stack_pointer)`;
then `self.stack_pointer += 1` (`CPU.spInc`).  Note the increment re-reads
`reg[7]`, which the assignment just overwrote when `a = 7`. -/
def CPU.pop (c : CPU) (a : Int) : StepRes :=
  readK c c.spGet fun sp =>
  readK c (c.ramRead sp) fun v =>
  writeK c (pySet c.reg a v) fun l =>
  CPU.spInc { c with reg := l }

/-- `prn` (lines 190-191): `print(self.reg[a])`.  The write to stdout is not
observed by any claim and is dropped; the register read (and its possible
`IndexError`) is kept. -/
def CPU.prn (c : CPU) (a : Int) : StepRes :=
  readK c (pyGet c.reg a) fun _ =>
  .ok c

/-- `push` (lines 193-195): `self.stack_pointer -= 1`;
`self.ram_write(self.stack_pointer, self.reg[a])`. -/
def CPU.push (c : CPU) (a : Int) : StepRes :=
  readK c c.spGet fun sp =>
  stepK c (c.spSet (sp - 1)) fun c1 =>
  readK c1 c1.spGet fun sp1 =>
  readK c1 (pyGet c1.reg a) fun v =>
  stepK c1 (c1.ramWrite sp1 v) fun c2 =>
  .ok c2

/-- The `if op == ...` chain of `alu` (lines 112-144).  Each branch reads the
registers in the source's evaluation order, computes with Python `int`
semantics (`//` and `%` are floor-based: `Int.fdiv`/`Int.fmod`; `~x = -x-1`;
`&`, `|`, `^` are two's complement: `Int.land`/`Int.lor`/`Int.xor`; a shift by
a negative count raises `ValueError`), and assigns `self.reg[a]`. -/
def CPU.aluBody (c : CPU) (op a : Int) (b : Option Int) : StepRes :=
  if op = ADD then
    readK c (pyGet c.reg a) fun va =>
    readK c (c.regGetOpt b) fun vb =>
    writeK c (pySet c.reg a (va + vb)) fun l => .ok { c with reg := l }
  else if op = AND then
    readK c (pyGet c.reg a) fun va =>
    readK c (c.regGetOpt b) fun vb =>
    writeK c (pySet c.reg a (Int.land va vb)) fun l => .ok { c with reg := l }
  else if op = CMP then
    .ok c  -- `pass` (TODO in the source: flags are never set)
  else if op = DEC then
    readK c (pyGet c.reg a) fun va =>
    writeK c (pySet c.reg a (va - 1)) fun l => .ok { c with reg := l }
  else if op = DIV then
    -- `if self.reg[b] == 0: raise ValueError("Cannot divide by 0")`
    readK c (c.regGetOpt b) fun vb0 =>
    if vb0 = 0 then .err (.valueError "Cannot divide by 0") c
    else
      readK c (pyGet c.reg a) fun va =>
      readK c (c.regGetOpt b) fun vb =>
      writeK c (pySet c.reg a (Int.fdiv va vb)) fun l => .ok { c with reg := l }
  else if op = INC then
    readK c (pyGet c.reg a) fun va =>
    writeK c (pySet c.reg a (va + 1)) fun l => .ok { c with reg := l }
  else if op = MOD then
    -- no zero check: Python raises `ZeroDivisionError` from `%` itself
    readK c (pyGet c.reg a) fun va =>
    readK c (c.regGetOpt b) fun vb =>
    if vb = 0 then .err .zeroDivisionError c
    else writeK c (pySet c.reg a (Int.fmod va vb)) fun l => .ok { c with reg := l }
  else if op = MUL then
    readK c (pyGet c.reg a) fun va =>
    readK c (c.regGetOpt b) fun vb =>
    writeK c (pySet c.reg a (va * vb)) fun l => .ok { c with reg := l }
  else if op = NOT then
    readK c (pyGet c.reg a) fun va =>
    writeK c (pySet c.reg a (-va - 1)) fun l => .ok { c with reg := l }
  else if op = OR then
    readK c (pyGet c.reg a) fun va =>
    readK c (c.regGetOpt b) fun vb =>
    writeK c (pySet c.reg a (Int.lor va vb)) fun l => .ok { c with reg := l }
  else if op = SHL then
    readK c (pyGet c.reg a) fun va =>
    readK c (c.regGetOpt b) fun vb =>
    if vb < 0 then .err (.valueError "negative shift count") c
    else writeK c (pySet c.reg a (va * 2 ^ vb.toNat)) fun l => .ok { c with reg := l }
  else if op = SHR then
    readK c (pyGet c.reg a) fun va =>
    readK c (c.regGetOpt b) fun vb =>
    if vb < 0 then .err (.valueError "negative shift count") c
    else writeK c (pySet c.reg a (Int.fdiv va (2 ^ vb.toNat))) fun l => .ok { c with reg := l }
  else if op = SUB then
    readK c (pyGet c.reg a) fun va =>
    readK c (c.regGetOpt b) fun vb =>
    writeK c (pySet c.reg a (va - vb)) fun l => .ok { c with reg := l }
  else if op = XOR then
    readK c (pyGet c.reg a) fun va =>
    readK c (c.regGetOpt b) fun vb =>
    writeK c (pySet c.reg a (Int.xor va vb)) fun l => .ok { c with reg := l }
  else
    .err .unsupportedAluOperation c  -- `raise Exception("Unsupported ALU Operation")`

/-- `alu` (lines 109-146): the `if op == ...` chain, then the trailing
`self.reg[a] &= 0xff` (line 146), which runs only when no exception was
raised. -/
def CPU.alu (c : CPU) (op a : Int) (b : Option Int) : StepRes :=
  (c.aluBody op a b).andThen fun c1 =>
  readK c1 (pyGet c1.reg a) fun va =>
  writeK c1 (pySet c1.reg a (mask8 va)) fun l =>
  .ok { c1 with reg := l }

/-- The seven handlers registered by `configure_dispatch_table`
(lines 67-76). -/
inductive Handler where
  | call | hlt | ldi | prn | pop | push | ret
deriving DecidableEq

/-- The dispatch table built once at construction (lines 67-76), keyed by the
full opcode byte. -/
def dispatchTable (op : Int) : Option Handler :=
  if op = CALL then some .call
  else if op = HLT then some .hlt
  else if op = LDI then some .ldi
  else if op = PRN then some .prn
  else if op = POP then some .pop
  else if op = PUSH then some .push
  else if op = RET then some .ret
  else none

/-- Calling a dispatch-table handler with zero arguments; a handler whose
Python signature requires operands raises `TypeError`. -/
def CPU.invoke0 (c : CPU) (h : Handler) : StepRes :=
  match h with
  | .hlt => c.hlt
  | .ret => c.ret
  | _ => .err .typeError c

/-- Calling a dispatch-table handler with one argument. -/
def CPU.invoke1 (c : CPU) (h : Handler) (x : Int) : StepRes :=
  match h with
  | .call => c.call x
  | .prn => c.prn x
  | .pop => c.pop x
  | .push => c.push x
  | _ => .err .typeError c

/-- Calling a dispatch-table handler with two arguments. -/
def CPU.invoke2 (c : CPU) (h : Handler) (x y : Int) : StepRes :=
  match h with
  | .ldi => c.ldi x y
  | _ => .err .typeError c

/-- One iteration of the `while True` loop of `run` (lines 198-246).  The
source fetches `instruction_reg` once before the loop and again at the end of
each iteration; since nothing changes state in between, this is the same as
fetching at the top of every iteration, which is how it is written here.
In the dispatch branches Python evaluates the callee
`self.dispatch_table[instruction_reg]` (a possible `KeyError`) before the
operand reads.  The `else: print("Bad instruction")` branches change no
state.  After the executed branch, `sets_pc` is tested and, when clear, the
trailing advance `self.pc += num_operands + 1` runs — in addition to the
`self.pc += ...` statements inside the branches. -/
def CPU.step (c : CPU) : StepRes :=
  readK c (c.ramRead c.pc) fun ir =>
  let nops := numOperands ir
  let body : StepRes :=
    if isAluOperation ir ≠ 0 then
      if nops = 1 then
        readK c (c.ramRead (c.pc + 1)) fun x =>
        (c.alu ir x none).andThen fun c1 =>
        .ok { c1 with pc := c1.pc + 2 }
      else if nops = 2 then
        readK c (c.ramRead (c.pc + 1)) fun x =>
        readK c (c.ramRead (c.pc + 2)) fun y =>
        (c.alu ir x (some y)).andThen fun c1 =>
        .ok { c1 with pc := c1.pc + 3 }
      else
        .ok c  -- print("Bad instruction")
    else if nops = 0 then
      match dispatchTable ir with
      | none => .err .keyError c
      | some h =>
        (c.invoke0 h).andThen fun c1 =>
        .ok { c1 with pc := c1.pc + 1 }
    else if nops = 1 then
      match dispatchTable ir with
      | none => .err .keyError c
      | some h =>
        readK c (c.ramRead (c.pc + 1)) fun x =>
        (c.invoke1 h x).andThen fun c1 =>
        .ok { c1 with pc := c1.pc + 2 }
    else if nops = 2 then
      match dispatchTable ir with
      | none => .err .keyError c
      | some h =>
        readK c (c.ramRead (c.pc + 1)) fun x =>
        readK c (c.ramRead (c.pc + 2)) fun y =>
        (c.invoke2 h x y).andThen fun c1 =>
        .ok { c1 with pc := c1.pc + 3 }
    else
      .ok c  -- print("Bad instruction")
  body.andThen fun c1 =>
  if setsPcFlag ir = 0 then .ok { c1 with pc := c1.pc + nops + 1 }
  else .ok c1

/-- Outcome of `run`.  The reference loop is `while True` with no normal
exit: it stops only when a Python exception escapes (`fault`) and otherwise
loops forever (`running` reports the state when the modelling fuel runs out).
`halted` is the specification's clean-halt outcome; the reference never
produces it and it exists only for comparison in statements. -/
inductive RunResult where
  | halted : CPU → RunResult
  | fault : Fault → CPU → RunResult
  | running : CPU → RunResult
deriving DecidableEq

/-- `run` (lines 198-246), with explicit fuel bounding the number of
fetch-decode-execute iterations observed. -/
def CPU.run (fuel : Nat) (c : CPU) : RunResult :=
  match fuel with
  | 0 => .running c
  | fuel + 1 =>
    match c.step with
    | .err f c1 => .fault f c1
    | .ok c1 => c1.run fuel



/-! ## Concrete fixture states used by the claim theorems -/

/-- A freshly constructed CPU loaded with the one-byte program `[HLT]`. -/
def haltCPU : CPU := { initialCPU with ram := initialCPU.ram.set 0 1 }

/-- A freshly constructed CPU loaded with the program `LDI R0, 8`
(bytes `0b10000010 0b00000000 0b00001000`). -/
def ldiCPU : CPU := { initialCPU with ram := (initialCPU.ram.set 0 130).set 2 8 }

/-- A freshly constructed CPU with `reg[0] = 0x30` loaded with the one-byte
program `[CALL R0]` (`0b01010000`; its operand byte is the 0 already in ram). -/
def callCPU : CPU := { initialCPU with ram := initialCPU.ram.set 0 80, reg := [48, 0, 0, 0, 0, 0, 0, 247] }

/-- A freshly constructed CPU whose register 0 holds 5. -/
def pushPopCPU : CPU := { initialCPU with reg := [5, 0, 0, 0, 0, 0, 0, 247] }

/-- A freshly constructed CPU with the program counter at address 254. -/
def pc254CPU : CPU := { initialCPU with pc := 254 }

/-- A freshly constructed CPU at `pc = 10` whose register 0 holds 0x30. -/
def callRetCPU : CPU := { initialCPU with pc := 10, reg := [48, 0, 0, 0, 0, 0, 0, 247] }

/-- A freshly constructed CPU whose register 0 holds 9. -/
def reg9CPU : CPU := { initialCPU with reg := [9, 0, 0, 0, 0, 0, 0, 247] }

/-! ## Arithmetic and list lemmas about the Python model -/

theorem mask8_nonneg (v : Int) : 0 ≤ mask8 v :=
  Int.emod_nonneg v (by norm_num)

theorem mask8_lt256 (v : Int) : mask8 v < 256 :=
  Int.emod_lt_of_pos v (by norm_num)

theorem mask8_eq_self {v : Int} (h0 : 0 ≤ v) (h : v < 256) : mask8 v = v := by
  unfold mask8; omega

theorem pyShift_nonneg {n : Nat} {i : Int} (h0 : 0 ≤ i) : pyShift n i = i := by
  unfold pyShift; rw [if_neg (by omega)]

theorem pyShift_neg {n : Nat} {i : Int} (h : i < 0) : pyShift n i = i + n := by
  unfold pyShift; rw [if_pos h]

theorem pyResolve_nonneg {n : Nat} {i : Int} (h0 : 0 ≤ i) (h : i < (n : Int)) :
    pyResolve n i = some i.toNat := by
  unfold pyResolve
  rw [pyShift_nonneg h0, if_pos (by omega)]

theorem pyResolve_negIdx {n : Nat} {i : Int} (h0 : -(n : Int) ≤ i) (h : i < 0) :
    pyResolve n i = some (i + n).toNat := by
  unfold pyResolve
  rw [pyShift_neg h, if_pos (by omega)]

theorem pyResolve_oob {n : Nat} {i : Int} (h : i < -(n : Int) ∨ (n : Int) ≤ i) :
    pyResolve n i = none := by
  unfold pyResolve
  rcases h with h | h
  · rw [pyShift_neg (by omega), if_neg (by omega)]
  · rw [pyShift_nonneg (by omega), if_neg (by omega)]

theorem pyResolve_lt {n : Nat} {i : Int} {j : Nat} (h : pyResolve n i = some j) : j < n := by
  unfold pyResolve at h
  by_cases h2 : 0 ≤ pyShift n i ∧ pyShift n i < n
  · rw [if_pos h2] at h
    injection h with hj
    omega
  · rw [if_neg h2] at h
    cases h

theorem pyGet_nonneg {l : List Int} {i : Int} (h0 : 0 ≤ i) (h : i < (l.length : Int)) :
    pyGet l i = .ok (l.getD i.toNat 0) := by
  unfold pyGet
  rw [pyResolve_nonneg h0 h]

theorem pySet_nonneg {l : List Int} {i : Int} (v : Int) (h0 : 0 ≤ i) (h : i < (l.length : Int)) :
    pySet l i v = .ok (l.set i.toNat v) := by
  unfold pySet
  rw [pyResolve_nonneg h0 h]

theorem pyGet_negIdx {l : List Int} {i : Int} (h0 : -(l.length : Int) ≤ i) (h : i < 0) :
    pyGet l i = .ok (l.getD (i + l.length).toNat 0) := by
  unfold pyGet
  rw [pyResolve_negIdx h0 h]

theorem pySet_negIdx {l : List Int} {i : Int} (v : Int) (h0 : -(l.length : Int) ≤ i)
    (h : i < 0) : pySet l i v = .ok (l.set (i + l.length).toNat v) := by
  unfold pySet
  rw [pyResolve_negIdx h0 h]

theorem pyGet_oob {l : List Int} {i : Int} (h : i < -(l.length : Int) ∨ (l.length : Int) ≤ i) :
    pyGet l i = .error .indexError := by
  unfold pyGet
  rw [pyResolve_oob h]

theorem pySet_oob {l : List Int} {i v : Int} (h : i < -(l.length : Int) ∨ (l.length : Int) ≤ i) :
    pySet l i v = .error .indexError := by
  unfold pySet
  rw [pyResolve_oob h]

theorem getD_set_self {l : List Int} {j : Nat} (v : Int) (h : j < l.length) :
    (l.set j v).getD j 0 = v := by
  rw [List.getD_eq_getElem?_getD, List.getElem?_set_self, Option.getD_some]
  omega

theorem getD_set_ne {l : List Int} {j k : Nat} (v : Int) (h : j ≠ k) :
    (l.set j v).getD k 0 = l.getD k 0 := by
  rw [List.getD_eq_getElem?_getD, List.getD_eq_getElem?_getD, List.getElem?_set_ne h]

theorem getD_mem {l : List Int} {j : Nat} (h : j < l.length) : l.getD j 0 ∈ l := by
  rw [List.getD_eq_getElem _ _ h]
  exact List.getElem_mem h

theorem pyGet_mem {l : List Int} {i v : Int} (h : pyGet l i = .ok v) : v ∈ l := by
  unfold pyGet at h
  cases hp : pyResolve l.length i with
  | none => rw [hp] at h; cases h
  | some j =>
    rw [hp] at h
    injection h with hv
    rw [← hv]
    exact getD_mem (pyResolve_lt hp)

theorem pySet_inv {l l' : List Int} {i v : Int} (h : pySet l i v = .ok l') :
    ∃ j, pyResolve l.length i = some j ∧ j < l.length ∧ l' = l.set j v := by
  unfold pySet at h
  cases hp : pyResolve l.length i with
  | none => rw [hp] at h; cases h
  | some j =>
    rw [hp] at h
    injection h with hl
    exact ⟨j, rfl, pyResolve_lt hp, hl.symm⟩

/-- Statement shorthand: the value held in register slot `j`. -/
def regD (c : CPU) (j : Nat) : Int := c.reg.getD j 0

/-- Statement shorthand: the value held in memory cell `j`. -/
def ramD (c : CPU) (j : Nat) : Int := c.ram.getD j 0

theorem spGet_ok {c : CPU} (h8 : c.reg.length = 8) : c.spGet = .ok (regD c 7) := by
  unfold CPU.spGet regD
  rw [pyGet_nonneg (by norm_num) (by rw [h8]; norm_num)]
  rfl

theorem spSet_ok {c : CPU} (h8 : c.reg.length = 8) (v : Int) :
    c.spSet v = .ok { c with reg := c.reg.set 7 (mask8 v) } := by
  unfold CPU.spSet
  rw [pySet_nonneg _ (by norm_num) (by rw [h8]; norm_num)]
  rfl

theorem regGet_ok {c : CPU} {a : Int} (h8 : c.reg.length = 8) (ha0 : 0 ≤ a) (ha : a < 8) :
    pyGet c.reg a = .ok (regD c a.toNat) := by
  unfold regD
  rw [pyGet_nonneg ha0 (by rw [h8]; omega)]

theorem spInc_spec {c : CPU} (h8 : c.reg.length = 8) :
    c.spInc = .ok { c with reg := c.reg.set 7 (mask8 (regD c 7 + 1)) } := by
  unfold CPU.spInc
  rw [spGet_ok h8]
  simp only [readK]
  rw [spSet_ok h8]
  simp only [stepK]

theorem push_spec {c : CPU} {a : Int} (h8 : c.reg.length = 8) (h256 : c.ram.length = 256)
    (ha0 : 0 ≤ a) (ha : a < 8) :
    c.push a = .ok { c with
      reg := c.reg.set 7 (mask8 (regD c 7 - 1)),
      ram := c.ram.set (mask8 (regD c 7 - 1)).toNat
        (if a = 7 then mask8 (regD c 7 - 1) else regD c a.toNat) } := by
  unfold CPU.push
  rw [spGet_ok h8]
  simp only [readK]
  rw [spSet_ok h8]
  simp only [stepK]
  have h8' : ({ c with reg := c.reg.set 7 (mask8 (regD c 7 - 1)) } : CPU).reg.length = 8 := by
    simp only [List.length_set, h8]
  rw [spGet_ok h8']
  simp only [readK]
  have hreg7 : regD { c with reg := c.reg.set 7 (mask8 (regD c 7 - 1)) } 7
      = mask8 (regD c 7 - 1) := by
    unfold regD
    exact getD_set_self _ (by rw [h8]; norm_num)
  rw [hreg7]
  rw [regGet_ok h8' ha0 ha]
  simp only [readK]
  have hval : regD { c with reg := c.reg.set 7 (mask8 (regD c 7 - 1)) } a.toNat
      = (if a = 7 then mask8 (regD c 7 - 1) else regD c a.toNat) := by
    unfold regD
    by_cases h7 : a = 7
    · subst h7
      rw [if_pos rfl]
      exact getD_set_self _ (by rw [h8]; norm_num)
    · rw [if_neg h7]
      exact getD_set_ne _ (by omega)
  rw [hval]
  unfold CPU.ramWrite
  rw [pySet_nonneg _ (mask8_nonneg _) (by rw [show ({ c with reg := c.reg.set 7 (mask8 (regD c 7 - 1)) } : CPU).ram = c.ram from rfl, h256]; exact_mod_cast mask8_lt256 _)]

theorem pop_spec {c : CPU} {a : Int} (h8 : c.reg.length = 8) (h256 : c.ram.length = 256)
    (ha0 : 0 ≤ a) (ha : a < 8) (hs0 : 0 ≤ regD c 7) (hs : regD c 7 < 256) :
    c.pop a = .ok { c with
      reg := (c.reg.set a.toNat (ramD c (regD c 7).toNat)).set 7
        (mask8 ((if a = 7 then ramD c (regD c 7).toNat else regD c 7) + 1)) } := by
  unfold CPU.pop
  rw [spGet_ok h8]
  simp only [readK]
  unfold CPU.ramRead
  rw [pyGet_nonneg hs0 (by rw [h256]; exact_mod_cast hs)]
  simp only [readK]
  rw [show (c.ram.getD (regD c 7).toNat 0) = ramD c (regD c 7).toNat from rfl]
  rw [pySet_nonneg _ ha0 (by rw [h8]; exact_mod_cast ha)]
  simp only [writeK]
  have h8' : ({ c with reg := c.reg.set a.toNat (ramD c (regD c 7).toNat) } : CPU).reg.length = 8 := by
    simp only [List.length_set, h8]
  rw [spInc_spec h8']
  have hreg7 : regD { c with reg := c.reg.set a.toNat (ramD c (regD c 7).toNat) } 7
      = (if a = 7 then ramD c (regD c 7).toNat else regD c 7) := by
    unfold regD
    by_cases h7 : a = 7
    · subst h7
      rw [if_pos rfl]
      exact getD_set_self _ (by rw [h8]; norm_num)
    · rw [if_neg h7]
      exact getD_set_ne _ (by omega)
  rw [hreg7]

theorem call_spec {c : CPU} {r : Int} (h8 : c.reg.length = 8) (h256 : c.ram.length = 256)
    (hr0 : 0 ≤ r) (hr : r < 8) :
    c.call r = .ok { c with
      reg := c.reg.set 7 (mask8 (regD c 7 - 1)),
      ram := c.ram.set (mask8 (regD c 7 - 1)).toNat (c.pc + 2),
      pc := if r = 7 then mask8 (regD c 7 - 1) else regD c r.toNat } := by
  unfold CPU.call
  rw [spGet_ok h8]
  simp only [readK]
  rw [spSet_ok h8]
  simp only [stepK]
  have h8' : ({ c with reg := c.reg.set 7 (mask8 (regD c 7 - 1)) } : CPU).reg.length = 8 := by
    simp only [List.length_set, h8]
  rw [spGet_ok h8']
  simp only [readK]
  have hreg7 : regD { c with reg := c.reg.set 7 (mask8 (regD c 7 - 1)) } 7
      = mask8 (regD c 7 - 1) := by
    unfold regD
    exact getD_set_self _ (by rw [h8]; norm_num)
  rw [hreg7]
  unfold CPU.ramWrite
  rw [pySet_nonneg _ (mask8_nonneg _) (by rw [show ({ c with reg := c.reg.set 7 (mask8 (regD c 7 - 1)) } : CPU).ram = c.ram from rfl, h256]; exact_mod_cast mask8_lt256 _)]
  simp only [stepK]
  have h8b : ({ c with reg := c.reg.set 7 (mask8 (regD c 7 - 1)), ram := c.ram.set (mask8 (regD c 7 - 1)).toNat (c.pc + 2) } : CPU).reg.length = 8 := by
    simp only [List.length_set, h8]
  rw [regGet_ok h8b hr0 hr]
  simp only [readK]
  have hval : regD { c with reg := c.reg.set 7 (mask8 (regD c 7 - 1)), ram := c.ram.set (mask8 (regD c 7 - 1)).toNat (c.pc + 2) } r.toNat
      = (if r = 7 then mask8 (regD c 7 - 1) else regD c r.toNat) := by
    unfold regD
    by_cases h7 : r = 7
    · subst h7
      rw [if_pos rfl]
      exact getD_set_self _ (by rw [h8]; norm_num)
    · rw [if_neg h7]
      exact getD_set_ne _ (by omega)
  rw [hval]

theorem ret_spec {c : CPU} (h8 : c.reg.length = 8) (h256 : c.ram.length = 256)
    (hs0 : 0 ≤ regD c 7) (hs : regD c 7 < 256) :
    c.ret = .ok { c with
      pc := ramD c (regD c 7).toNat,
      reg := c.reg.set 7 (mask8 (regD c 7 + 1)) } := by
  unfold CPU.ret
  rw [spGet_ok h8]
  simp only [readK]
  unfold CPU.ramRead
  rw [pyGet_nonneg hs0 (by rw [h256]; exact_mod_cast hs)]
  simp only [readK]
  rw [spInc_spec (show ({ c with pc := c.ram.getD (regD c 7).toNat 0 } : CPU).reg.length = 8 from h8)]
  rfl

theorem pyGet_after_set {l : List Int} {i : Int} {j : Nat} (v : Int)
    (hj : pyResolve l.length i = some j) :
    pyGet (l.set j v) i = .ok v := by
  unfold pyGet
  rw [List.length_set, hj]
  show Except.ok ((l.set j v).getD j 0) = Except.ok v
  rw [getD_set_self v (pyResolve_lt hj)]

theorem alu_ok_masked {c c' : CPU} {op a : Int} {b : Option Int}
    (h : c.alu op a b = .ok c') :
    ∀ v, pyGet c'.reg a = .ok v → 0 ≤ v ∧ v < 256 := by
  unfold CPU.alu at h
  cases hb : c.aluBody op a b with
  | err f c1 =>
    rw [hb] at h
    simp only [StepRes.andThen] at h
    cases h
  | ok c1 =>
    rw [hb] at h
    simp only [StepRes.andThen] at h
    cases hg : pyGet c1.reg a with
    | error f =>
      rw [hg] at h
      simp only [readK] at h
      cases h
    | ok va =>
      rw [hg] at h
      simp only [readK] at h
      cases hs : pySet c1.reg a (mask8 va) with
      | error f =>
        rw [hs] at h
        simp only [writeK] at h
        cases h
      | ok l =>
        rw [hs] at h
        simp only [writeK] at h
        injection h with h
        subst h
        obtain ⟨j, hj, hjlt, hl⟩ := pySet_inv hs
        subst hl
        intro v hv
        rw [show ({ c1 with reg := c1.reg.set j (mask8 va) } : CPU).reg
            = c1.reg.set j (mask8 va) from rfl] at hv
        rw [pyGet_after_set (mask8 va) hj] at hv
        injection hv with hv
        rw [← hv]
        exact ⟨mask8_nonneg _, mask8_lt256 _⟩

theorem ldi_ok_verbatim {c c' : CPU} {a value : Int} (h : c.ldi a value = .ok c') :
    pyGet c'.reg a = .ok value := by
  unfold CPU.ldi at h
  cases hs : pySet c.reg a value with
  | error f =>
    rw [hs] at h
    simp only [writeK] at h
    cases h
  | ok l =>
    rw [hs] at h
    simp only [writeK] at h
    injection h with h
    subst h
    obtain ⟨j, hj, hjlt, hl⟩ := pySet_inv hs
    subst hl
    rw [show ({ c with reg := c.reg.set j value } : CPU).reg
        = c.reg.set j value from rfl]
    exact pyGet_after_set value hj

/-! ## Claim theorems -/

/-- C1, counterexample.  The claim says that for a program consisting solely
of the halt opcode, `run()` returns Halted after one fetch cycle with PC
advanced to 1.  In the reference, `hlt` calls `sys.exit()`: the run ends in
the `SystemExit` fault (process termination) with PC still 0, and in
particular not in the clean `halted` outcome with PC 1. -/
theorem c1_hlt_counterexample :
    haltCPU.run 10 = .fault .systemExit haltCPU ∧
    haltCPU.pc = 0 ∧
    haltCPU.run 10 ≠ .halted { haltCPU with pc := 1 } := by
  decide

/-- C1, amended.  Executing HLT raises `SystemExit` via `sys.exit()`, which
escapes `run` uncaught and terminates the hosting process: for the program
consisting solely of the halt opcode, every run (any positive fuel) ends in
the `SystemExit` fault after the first fetch cycle, with PC still at its
initial value 0 (the loop's PC advance is never reached). -/
theorem c1_hlt_exits_process (n : Nat) :
    haltCPU.run (n + 1) = .fault .systemExit haltCPU ∧ haltCPU.pc = 0 := by
  refine ⟨?_, rfl⟩
  have h : haltCPU.step = .err .systemExit haltCPU := by decide
  simp only [CPU.run, h]

/-- C2, code bug.  The claim (and spec step 4) says a non-`sets_pc`
instruction advances PC by exactly `operand_count + 1`, and a `sets_pc`
instruction leaves PC exactly where the handler put it.  The code advances
twice: the branch bodies contain inline `self.pc += operand_count + 1`
statements and the trailing advance then runs again, so `LDI R0, 8` at
PC 0 (operand count 2, `sets_pc` clear) leaves PC at 6 instead of 3; and
for `CALL R0` (`sets_pc` set, handler sets PC to `reg[0]` = 0x30 = 48) the
inline `self.pc += 2` still runs, leaving PC at 50 instead of 48. -/
theorem c2_pc_double_advance :
    (ldiCPU.step = .ok { ldiCPU with reg := [8, 0, 0, 0, 0, 0, 0, 247], pc := 6 } ∧
      (6 : Int) ≠ 2 + 1) ∧
    (callCPU.step = .ok { callCPU with
        ram := callCPU.ram.set 246 2,
        reg := [48, 0, 0, 0, 0, 0, 0, 246],
        pc := 50 } ∧
      (50 : Int) ≠ 48) := by
  decide

/-- C3, counterexample.  The claim says dispatching a non-ALU opcode with no
registered handler fails with a structured `UnimplementedOpcode` fault.  On a
freshly constructed CPU the fetched opcode is `NOP = 0` (not in the dispatch
table, ALU flag clear): the step fails with a raw `KeyError` from the dict
lookup — not with `UnimplementedOpcode`. -/
theorem c3_keyerror_counterexample :
    initialCPU.step = .err .keyError initialCPU ∧
    Fault.keyError ≠ Fault.unimplementedOpcode := by
  decide

/-- C3, amended.  Dispatching a non-ALU opcode (ALU flag clear, operand
count 0, 1 or 2) that has no entry in the dispatch table raises `KeyError`
from the dictionary lookup, which escapes the loop uncaught (aborting the
hosting process rather than being reported as a structured fault); the
CPU state — registers, memory and PC — is exactly the state before the
dispatch. -/
theorem c3_unregistered_opcode_keyerror (c : CPU) (ir : Int)
    (hfetch : c.ramRead c.pc = .ok ir)
    (halu : isAluOperation ir = 0)
    (hnone : dispatchTable ir = none)
    (hnops : numOperands ir = 0 ∨ numOperands ir = 1 ∨ numOperands ir = 2) :
    c.step = .err .keyError c := by
  unfold CPU.step
  rw [hfetch]
  simp only [readK]
  rw [if_neg (by simp [halu])]
  rcases hnops with h | h | h <;>
    simp [h, hnone, StepRes.andThen]

/-- C3, witness for the amended theorem: on a freshly constructed CPU the
fetched opcode is 0, which decodes to a non-ALU zero-operand instruction
with no dispatch entry, and the step raises `KeyError` with the state
unchanged. -/
theorem c3_unregistered_opcode_witness :
    initialCPU.step = .err .keyError initialCPU :=
  c3_unregistered_opcode_keyerror initialCPU 0 (by decide) (by decide) (by decide)
    (Or.inl (by decide))

/-- C4.  For all register indices `a`, `b` with register `b` holding 0:
the ALU operation DIV fails with the explicit
`ValueError("Cannot divide by 0")` and MOD fails with Python's
`ZeroDivisionError` — both members of the spec's `DivisionByZero` fault
class — and in both cases the fault carries the state `c` itself:
destination register, all other registers and memory are unmodified.
The final conjunct shows the DIV fault propagating through the loop: a step
whose fetched instruction is `DIV a b` fails with the same fault and the
whole CPU state (PC included) unchanged. -/
theorem c4_div_mod_by_zero (c : CPU) (a b : Int)
    (h8 : c.reg.length = 8)
    (ha0 : 0 ≤ a) (ha : a < 8) (hb0 : 0 ≤ b) (hb : b < 8)
    (hzero : pyGet c.reg b = .ok 0) :
    (c.alu DIV a (some b) = .err (.valueError "Cannot divide by 0") c ∧
      Fault.isDivisionByZero (.valueError "Cannot divide by 0")) ∧
    (c.alu MOD a (some b) = .err .zeroDivisionError c ∧
      Fault.isDivisionByZero .zeroDivisionError) ∧
    (c.ramRead c.pc = .ok DIV → c.ramRead (c.pc + 1) = .ok a →
      c.ramRead (c.pc + 2) = .ok b →
      c.step = .err (.valueError "Cannot divide by 0") c) := by
  have hdiv : c.aluBody DIV a (some b) = .err (.valueError "Cannot divide by 0") c := by
    unfold CPU.aluBody
    rw [if_neg (by decide), if_neg (by decide), if_neg (by decide), if_neg (by decide),
      if_pos rfl]
    rw [show c.regGetOpt (some b) = pyGet c.reg b from rfl, hzero]
    simp only [readK]
    simp
  have hmod : c.aluBody MOD a (some b) = .err .zeroDivisionError c := by
    unfold CPU.aluBody
    rw [if_neg (by decide), if_neg (by decide), if_neg (by decide), if_neg (by decide),
      if_neg (by decide), if_neg (by decide), if_pos rfl]
    rw [regGet_ok h8 ha0 ha]
    simp only [readK]
    rw [show c.regGetOpt (some b) = pyGet c.reg b from rfl, hzero]
    simp only [readK]
    simp
  have hdivalu : c.alu DIV a (some b) = .err (.valueError "Cannot divide by 0") c := by
    unfold CPU.alu
    rw [hdiv]
    simp only [StepRes.andThen]
  refine ⟨⟨hdivalu, Or.inl rfl⟩, ⟨?_, Or.inr rfl⟩, ?_⟩
  · unfold CPU.alu
    rw [hmod]
    simp only [StepRes.andThen]
  · intro hir hx hy
    unfold CPU.step
    rw [hir]
    simp only [readK]
    rw [if_pos (by decide : isAluOperation DIV ≠ 0)]
    rw [if_neg (by decide : ¬ numOperands DIV = 1)]
    rw [if_pos (by decide : numOperands DIV = 2)]
    rw [hx]
    simp only [readK]
    rw [hy]
    simp only [readK]
    rw [hdivalu]
    simp only [StepRes.andThen]

/-- A freshly constructed CPU loaded with the program `DIV R0, R1`
(bytes `0b10100011 0b00000000 0b00000001`); register 1 holds 0. -/
def divCPU : CPU := { initialCPU with ram := (initialCPU.ram.set 0 163).set 2 1 }

/-- C4, witness: on a fresh CPU loaded with `DIV R0, R1` (register 1 = 0),
DIV and MOD by register 1 fail with the division-by-zero faults leaving the
state untouched, and the step executing the DIV instruction fails the same
way. -/
theorem c4_div_mod_witness :
    divCPU.alu DIV 0 (some 1) = .err (.valueError "Cannot divide by 0") divCPU ∧
    divCPU.alu MOD 0 (some 1) = .err .zeroDivisionError divCPU ∧
    divCPU.step = .err (.valueError "Cannot divide by 0") divCPU :=
  have h := c4_div_mod_by_zero divCPU 0 1 (by decide) (by decide) (by decide) (by decide)
    (by decide) (by decide)
  ⟨h.1.1, h.2.1.1, h.2.2 (by decide) (by decide) (by decide)⟩

/-- A freshly constructed CPU loaded with `LDI R0, 300`: the loader parses
binary literals with `int(line, 2)` and never masks, so an operand byte
holding 300 (`0b100101100`) is producible by a 9-character program line. -/
def ldi300CPU : CPU := { initialCPU with ram := (initialCPU.ram.set 0 130).set 2 300 }

/-- C5, counterexample.  The claim says every write to a register slot is
masked to 8 bits, so registers stay in [0, 255] after every load-immediate.
`ldi` stores its operand verbatim (`self.reg[a] = value`, no mask):
executing `LDI R0, 300` leaves 300 — greater than 255 — in register 0. -/
theorem c5_ldi_unmasked_counterexample :
    ldi300CPU.step = .ok { ldi300CPU with reg := [300, 0, 0, 0, 0, 0, 0, 247], pc := 6 } ∧
    ¬ ((300 : Int) ≤ 255) := by
  decide

/-- C5, amended.  Every ALU operation masks the destination register to
8 bits (its trailing `self.reg[a] &= 0xff`), so after a successful ALU
operation the destination register read back through the register file is
in [0, 255]; `ldi`, by contrast, stores its operand verbatim, so after a
load-immediate the destination holds exactly the unmasked operand and is in
[0, 255] only when the operand already was. -/
theorem c5_register_masking :
    (∀ (c c' : CPU) (op a : Int) (b : Option Int), c.alu op a b = .ok c' →
      ∀ v, pyGet c'.reg a = .ok v → 0 ≤ v ∧ v < 256) ∧
    (∀ (c c' : CPU) (a value : Int), c.ldi a value = .ok c' →
      pyGet c'.reg a = .ok value) :=
  ⟨fun _ _ _ _ _ h => alu_ok_masked h, fun _ _ _ _ h => ldi_ok_verbatim h⟩

/-- C5, witness: `ADD R0, R1` on a fresh CPU leaves a masked (in-range)
value in register 0, and `LDI R0, 300` leaves exactly 300 there. -/
theorem c5_register_masking_witness :
    (0 ≤ (0 : Int) ∧ (0 : Int) < 256) ∧
    pyGet ([300, 0, 0, 0, 0, 0, 0, 247] : List Int) 0 = .ok 300 :=
  ⟨c5_register_masking.1 initialCPU
      ⟨List.replicate 256 0, [0, 0, 0, 0, 0, 0, 0, 247], 0⟩ ADD 0 (some 1)
      (by decide) 0 (by decide),
    c5_register_masking.2 initialCPU
      ⟨List.replicate 256 0, [300, 0, 0, 0, 0, 0, 0, 247], 0⟩ 0 300 (by decide)⟩

/-- C6.  Decoding is pure and total (the decode fields are Lean functions of
the instruction byte): for every byte, `num_operands` is the top two bits
(`b >> 6`, i.e. `b / 64`), the ALU flag is bit 5 and the `sets_pc` flag is
bit 4.  The final conjuncts record that opcode identity for dispatch is the
full byte: POP (`0b01000110`) has a handler while its low-4-bit id
(`0b0110`) alone has none. -/
theorem c6_decode_fields (b : Nat) (hb : b < 256) :
    (numOperands b = ((b / 64 : Nat) : Int) ∧
      isAluOperation b = (if b.testBit 5 then 1 else 0) ∧
      setsPcFlag b = (if b.testBit 4 then 1 else 0)) ∧
    dispatchTable POP = some Handler.pop ∧
    dispatchTable (Int.land POP 0b00001111) = none := by
  revert b
  decide

/-- C6, witness at the LDI byte `0b10000010`: two operands, not an ALU
operation, does not set the PC. -/
theorem c6_decode_fields_witness :
    (numOperands (130 : Nat) = (((130 : Nat) / 64 : Nat) : Int) ∧
      isAluOperation (130 : Nat) = (if (130 : Nat).testBit 5 then 1 else 0) ∧
      setsPcFlag (130 : Nat) = (if (130 : Nat).testBit 4 then 1 else 0)) ∧
    dispatchTable POP = some Handler.pop ∧
    dispatchTable (Int.land POP 0b00001111) = none :=
  c6_decode_fields 130 (by decide)

/-- C7, counterexample.  The claim quantifies over all register pairs
`a, b`; take `a = 0`, `b = 7` on a fresh CPU with `reg[0] = 5` (stack
pointer 0xF7 = 247).  `pop(7)` first stores the popped value 5 in
register 7, but its trailing `self.stack_pointer += 1` then reads that
same register back and overwrites it with 6: afterwards register 7 holds
6, which is neither the pushed value 5 nor the pre-push stack pointer
247 — the claim fails on both counts. -/
theorem c7_pop_into_sp_counterexample :
    (pushPopCPU.push 0).andThen (fun c1 => c1.pop 7)
      = .ok { pushPopCPU with
          ram := pushPopCPU.ram.set 246 5,
          reg := [5, 0, 0, 0, 0, 0, 0, 6] } ∧
    (6 : Int) ≠ 5 ∧ (6 : Int) ≠ 247 := by
  decide

/-- C7, amended.  For every CPU state of the specified data model (8
register slots, 256 ram cells, stack pointer in [0, 255]) and register
indices `a, b` with `b ≠ 7`: `push(a)` immediately followed by `pop(b)`
stores the pushed value (register `a` as read after the stack-pointer
decrement) into register `b` and restores the stack pointer — register 7 —
to its pre-push value, leaving PC untouched.  For `b = 7` the trailing
stack-pointer increment of `pop` clobbers the popped value (see the
counterexample). -/
theorem c7_push_pop_roundtrip (c : CPU) (a b : Int)
    (h8 : c.reg.length = 8) (h256 : c.ram.length = 256)
    (ha0 : 0 ≤ a) (ha : a < 8) (hb0 : 0 ≤ b) (hb : b < 8) (hb7 : b ≠ 7)
    (hs0 : 0 ≤ regD c 7) (hs : regD c 7 < 256) :
    (c.push a).andThen (fun c1 => c1.pop b) = .ok { c with
      reg := ((c.reg.set 7 (mask8 (regD c 7 - 1))).set b.toNat
          (if a = 7 then mask8 (regD c 7 - 1) else regD c a.toNat)).set 7 (regD c 7),
      ram := c.ram.set (mask8 (regD c 7 - 1)).toNat
          (if a = 7 then mask8 (regD c 7 - 1) else regD c a.toNat) } ∧
    (∀ c', (c.push a).andThen (fun c1 => c1.pop b) = .ok c' →
      regD c' b.toNat = (if a = 7 then mask8 (regD c 7 - 1) else regD c a.toNat) ∧
      regD c' 7 = regD c 7 ∧ c'.pc = c.pc) := by
  have hmain : (c.push a).andThen (fun c1 => c1.pop b) = .ok { c with
      reg := ((c.reg.set 7 (mask8 (regD c 7 - 1))).set b.toNat
          (if a = 7 then mask8 (regD c 7 - 1) else regD c a.toNat)).set 7 (regD c 7),
      ram := c.ram.set (mask8 (regD c 7 - 1)).toNat
          (if a = 7 then mask8 (regD c 7 - 1) else regD c a.toNat) } := by
    rw [push_spec h8 h256 ha0 ha]
    simp only [StepRes.andThen]
    have hc17 : regD { c with
        reg := c.reg.set 7 (mask8 (regD c 7 - 1)),
        ram := c.ram.set (mask8 (regD c 7 - 1)).toNat
          (if a = 7 then mask8 (regD c 7 - 1) else regD c a.toNat) } 7
        = mask8 (regD c 7 - 1) := by
      unfold regD
      exact getD_set_self _ (by rw [h8]; norm_num)
    rw [pop_spec (by simp only [List.length_set, h8])
      (by simp only [List.length_set, h256]) hb0 hb
      (by rw [hc17]; exact mask8_nonneg _) (by rw [hc17]; exact mask8_lt256 _)]
    rw [hc17, if_neg hb7]
    have hram : ramD { c with
        reg := c.reg.set 7 (mask8 (regD c 7 - 1)),
        ram := c.ram.set (mask8 (regD c 7 - 1)).toNat
          (if a = 7 then mask8 (regD c 7 - 1) else regD c a.toNat) }
        (mask8 (regD c 7 - 1)).toNat
        = (if a = 7 then mask8 (regD c 7 - 1) else regD c a.toNat) := by
      unfold ramD
      exact getD_set_self _
        (by rw [h256]; have := mask8_nonneg (regD c 7 - 1); have := mask8_lt256 (regD c 7 - 1); omega)
    rw [hram]
    have hmask : mask8 (mask8 (regD c 7 - 1) + 1) = regD c 7 := by
      unfold mask8
      omega
    rw [hmask]
  refine ⟨hmain, ?_⟩
  intro c' h'
  rw [hmain] at h'
  injection h' with h'
  subst h'
  refine ⟨?_, ?_, rfl⟩
  · unfold regD
    rw [getD_set_ne _ (by omega)]
    exact getD_set_self _ (by simp only [List.length_set, h8]; omega)
  · unfold regD
    exact getD_set_self _ (by simp only [List.length_set, h8]; norm_num)

/-- C7, witness for the amended theorem: pushing register 0 (value 5) and
popping into register 1 on a fresh CPU stores 5 in register 1 and restores
the stack pointer to 0xF7 = 247. -/
theorem c7_push_pop_witness :
    regD { pushPopCPU with
        ram := pushPopCPU.ram.set 246 5,
        reg := [5, 5, 0, 0, 0, 0, 0, 247] } 1 = 5 ∧
    regD { pushPopCPU with
        ram := pushPopCPU.ram.set 246 5,
        reg := [5, 5, 0, 0, 0, 0, 0, 247] } 7 = 247 :=
  have h := c7_push_pop_roundtrip pushPopCPU 0 1 (by decide) (by decide) (by decide)
    (by decide) (by decide) (by decide) (by decide) (by decide) (by decide)
  have h2 := h.2 { pushPopCPU with
      ram := pushPopCPU.ram.set 246 5,
      reg := [5, 5, 0, 0, 0, 0, 0, 247] } (by decide)
  ⟨h2.1, h2.2.1⟩

/-- C8.  For every CPU state of the specified data model (8 register slots,
256 ram cells, stack pointer in [0, 255]), every PC value `p` and every
register index `r`: `call(r)` — which pushes `p + 2` and jumps to the value
of register `r` — followed by `ret()` returns PC to exactly `p + 2`, the
address just past the 2-byte CALL instruction, and restores the stack
pointer (register 7) to its pre-call value. -/
theorem c8_call_ret_roundtrip (c : CPU) (r : Int)
    (h8 : c.reg.length = 8) (h256 : c.ram.length = 256)
    (hr0 : 0 ≤ r) (hr : r < 8)
    (hs0 : 0 ≤ regD c 7) (hs : regD c 7 < 256) :
    (c.call r).andThen CPU.ret = .ok { c with
      reg := (c.reg.set 7 (mask8 (regD c 7 - 1))).set 7 (regD c 7),
      ram := c.ram.set (mask8 (regD c 7 - 1)).toNat (c.pc + 2),
      pc := c.pc + 2 } ∧
    (∀ c', (c.call r).andThen CPU.ret = .ok c' →
      c'.pc = c.pc + 2 ∧ regD c' 7 = regD c 7) := by
  have hmain : (c.call r).andThen CPU.ret = .ok { c with
      reg := (c.reg.set 7 (mask8 (regD c 7 - 1))).set 7 (regD c 7),
      ram := c.ram.set (mask8 (regD c 7 - 1)).toNat (c.pc + 2),
      pc := c.pc + 2 } := by
    rw [call_spec h8 h256 hr0 hr]
    simp only [StepRes.andThen]
    have hc17 : regD { c with
        reg := c.reg.set 7 (mask8 (regD c 7 - 1)),
        ram := c.ram.set (mask8 (regD c 7 - 1)).toNat (c.pc + 2),
        pc := if r = 7 then mask8 (regD c 7 - 1) else regD c r.toNat } 7
        = mask8 (regD c 7 - 1) := by
      unfold regD
      exact getD_set_self _ (by rw [h8]; norm_num)
    rw [ret_spec (by simp only [List.length_set, h8])
      (by simp only [List.length_set, h256])
      (by rw [hc17]; exact mask8_nonneg _) (by rw [hc17]; exact mask8_lt256 _)]
    rw [hc17]
    have hram : ramD { c with
        reg := c.reg.set 7 (mask8 (regD c 7 - 1)),
        ram := c.ram.set (mask8 (regD c 7 - 1)).toNat (c.pc + 2),
        pc := if r = 7 then mask8 (regD c 7 - 1) else regD c r.toNat }
        (mask8 (regD c 7 - 1)).toNat = c.pc + 2 := by
      unfold ramD
      exact getD_set_self _
        (by rw [h256]; have := mask8_nonneg (regD c 7 - 1); have := mask8_lt256 (regD c 7 - 1); omega)
    rw [hram]
    have hmask : mask8 (mask8 (regD c 7 - 1) + 1) = regD c 7 := by
      unfold mask8
      omega
    rw [hmask]
  refine ⟨hmain, ?_⟩
  intro c' h'
  rw [hmain] at h'
  injection h' with h'
  subst h'
  refine ⟨rfl, ?_⟩
  unfold regD
  exact getD_set_self _ (by simp only [List.length_set, h8]; norm_num)

/-- C8, witness: on a fresh CPU at PC 10 with register 0 = 0x30,
`call(0)` then `ret()` brings PC to 12 = 10 + 2 and the stack pointer back
to 0xF7 = 247. -/
theorem c8_call_ret_witness :
    ({ callRetCPU with
        reg := [48, 0, 0, 0, 0, 0, 0, 247],
        ram := callRetCPU.ram.set 246 12,
        pc := 12 } : CPU).pc = callRetCPU.pc + 2 ∧
    callRetCPU.pc + 2 = 12 ∧
    regD { callRetCPU with
        reg := [48, 0, 0, 0, 0, 0, 0, 247],
        ram := callRetCPU.ram.set 246 12,
        pc := 12 } 7 = regD callRetCPU 7 ∧
    regD callRetCPU 7 = 247 :=
  have h := c8_call_ret_roundtrip callRetCPU 0 (by decide) (by decide) (by decide)
    (by decide) (by decide) (by decide)
  have h2 := h.2 { callRetCPU with
      reg := [48, 0, 0, 0, 0, 0, 0, 247],
      ram := callRetCPU.ram.set 246 12,
      pc := 12 } (by decide)
  ⟨h2.1, by decide, h2.2, by decide⟩

/-- C9, counterexample.  `ram_write` performs no masking, and `call` writes
the unmasked return address `pc + 2`.  On a fresh CPU whose PC is 254 —
a valid fetch address — `CALL R0` stores 256 in memory cell 246, so the
claim that every reachable memory cell stays in [0, 255] fails. -/
theorem c9_call_overflows_cell_counterexample :
    pc254CPU.call 0 = .ok { pc254CPU with
        ram := pc254CPU.ram.set 246 256,
        reg := [0, 0, 0, 0, 0, 0, 0, 246],
        pc := 0 } ∧
    ramD { pc254CPU with
        ram := pc254CPU.ram.set 246 256,
        reg := [0, 0, 0, 0, 0, 0, 0, 246],
        pc := 0 } 246 = 256 ∧
    ¬ ((256 : Int) ≤ 255) := by
  decide

/-- C9, amended.  Memory writes are unmasked, so memory cells stay 8-bit
only as long as every value written is: a successful `push` preserves
all-cells-in-[0, 255] whenever all registers are in [0, 255] (the pushed
value is a register value or the freshly masked stack pointer), and a
successful `call` preserves it whenever additionally `0 ≤ pc + 2 < 256`;
with `pc + 2 = 256` the property is violated (see the counterexample). -/
theorem c9_ram_write_preservation (c : CPU)
    (h8 : c.reg.length = 8) (h256 : c.ram.length = 256) :
    (∀ a c', c.push a = .ok c' →
      (∀ v, v ∈ c.reg → 0 ≤ v ∧ v < 256) → (∀ v, v ∈ c.ram → 0 ≤ v ∧ v < 256) →
      ∀ v, v ∈ c'.ram → 0 ≤ v ∧ v < 256) ∧
    (∀ r c', c.call r = .ok c' →
      (∀ v, v ∈ c.ram → 0 ≤ v ∧ v < 256) → 0 ≤ c.pc + 2 → c.pc + 2 < 256 →
      ∀ v, v ∈ c'.ram → 0 ≤ v ∧ v < 256) := by
  constructor
  · intro a c' h hregs hram
    unfold CPU.push at h
    rw [spGet_ok h8] at h
    simp only [readK] at h
    rw [spSet_ok h8] at h
    simp only [stepK] at h
    rw [spGet_ok (by simp only [List.length_set, h8])] at h
    simp only [readK] at h
    cases hg : pyGet ({ c with reg := c.reg.set 7 (mask8 (regD c 7 - 1)) } : CPU).reg a with
    | error f =>
      rw [hg] at h
      simp only [readK] at h
      cases h
    | ok va =>
      rw [hg] at h
      simp only [readK] at h
      unfold CPU.ramWrite at h
      cases hset : pySet ({ c with reg := c.reg.set 7 (mask8 (regD c 7 - 1)) } : CPU).ram
          (regD { c with reg := c.reg.set 7 (mask8 (regD c 7 - 1)) } 7) va with
      | error f =>
        rw [hset] at h
        simp only [stepK] at h
        cases h
      | ok l =>
        rw [hset] at h
        simp only [stepK] at h
        injection h with h
        subst h
        obtain ⟨j, hj, hjlt, hl⟩ := pySet_inv hset
        subst hl
        intro v hv
        rcases List.mem_or_eq_of_mem_set hv with hv | hv
        · exact hram v hv
        · subst hv
          rcases List.mem_or_eq_of_mem_set (pyGet_mem hg) with hva | hva
          · exact hregs _ hva
          · rw [hva]
            exact ⟨mask8_nonneg _, mask8_lt256 _⟩
  · intro r c' h hram hpc0 hpc
    unfold CPU.call at h
    rw [spGet_ok h8] at h
    simp only [readK] at h
    rw [spSet_ok h8] at h
    simp only [stepK] at h
    rw [spGet_ok (by simp only [List.length_set, h8])] at h
    simp only [readK] at h
    unfold CPU.ramWrite at h
    cases hset : pySet ({ c with reg := c.reg.set 7 (mask8 (regD c 7 - 1)) } : CPU).ram
        (regD { c with reg := c.reg.set 7 (mask8 (regD c 7 - 1)) } 7)
        (({ c with reg := c.reg.set 7 (mask8 (regD c 7 - 1)) } : CPU).pc + 2) with
    | error f =>
      rw [hset] at h
      simp only [stepK] at h
      cases h
    | ok l =>
      rw [hset] at h
      simp only [stepK] at h
      cases hg : pyGet (c.reg.set 7 (mask8 (regD c 7 - 1))) r with
      | error f =>
        rw [hg] at h
        simp only [readK] at h
        cases h
      | ok v2 =>
        rw [hg] at h
        simp only [readK] at h
        injection h with h
        subst h
        obtain ⟨j, hj, hjlt, hl⟩ := pySet_inv hset
        subst hl
        intro v hv
        rcases List.mem_or_eq_of_mem_set hv with hv | hv
        · exact hram v hv
        · subst hv
          exact ⟨hpc0, hpc⟩

/-- C9, witness for the amended theorem: pushing register 0 (value 9) on a
fresh CPU writes 9 — still an 8-bit value — and every cell of the resulting
memory stays in [0, 255]; the witness reads back the pushed cell. -/
theorem c9_ram_write_witness :
    0 ≤ (9 : Int) ∧ (9 : Int) < 256 :=
  (c9_ram_write_preservation reg9CPU (by decide) (by decide)).1 0
    { reg9CPU with
      reg := [9, 0, 0, 0, 0, 0, 0, 246],
      ram := reg9CPU.ram.set 246 9 }
    (by decide) (by decide) (by decide) 9 (by decide)

/-- C10.  `ram_read`/`ram_write` use Python list indexing on the 256-cell
`self.ram`: every address in [-256, -1] resolves to cell `address + 256`
(negative indexing) and succeeds, every address in [0, 255] resolves to
itself and succeeds, and only addresses outside [-256, 255] raise
`IndexError`. -/
theorem c10_negative_indexing (c : CPU) (a v : Int) (h256 : c.ram.length = 256) :
    (-256 ≤ a → a ≤ -1 →
      c.ramRead a = .ok (c.ram.getD (a + 256).toNat 0) ∧
      c.ramWrite a v = .ok { c with ram := c.ram.set (a + 256).toNat v }) ∧
    ((a < -256 ∨ 255 < a) →
      c.ramRead a = .error .indexError ∧ c.ramWrite a v = .error .indexError) ∧
    (0 ≤ a → a ≤ 255 →
      c.ramRead a = .ok (c.ram.getD a.toNat 0) ∧
      c.ramWrite a v = .ok { c with ram := c.ram.set a.toNat v }) := by
  have hcast : ((c.ram.length : Nat) : Int) = 256 := by
    rw [h256]
    norm_num
  refine ⟨fun h0 h1 => ⟨?_, ?_⟩, fun hout => ⟨?_, ?_⟩, fun h0 h1 => ⟨?_, ?_⟩⟩
  · unfold CPU.ramRead
    rw [pyGet_negIdx (by omega) (by omega), hcast]
  · unfold CPU.ramWrite
    rw [pySet_negIdx _ (by omega) (by omega), hcast]
  · unfold CPU.ramRead
    rw [pyGet_oob (by omega)]
  · unfold CPU.ramWrite
    rw [pySet_oob (by omega)]
  · unfold CPU.ramRead
    rw [pyGet_nonneg h0 (by omega)]
  · unfold CPU.ramWrite
    rw [pySet_nonneg _ h0 (by omega)]

/-- C10, witness: on a fresh CPU, reading address -1 yields cell 255 and
writing 7 at address -1 updates cell 255. -/
theorem c10_negative_indexing_witness :
    initialCPU.ramRead (-1) = .ok (initialCPU.ram.getD ((-1) + 256).toNat 0) ∧
    initialCPU.ramWrite (-1) 7
      = .ok { initialCPU with ram := initialCPU.ram.set ((-1) + 256).toNat 7 } :=
  (c10_negative_indexing initialCPU (-1) 7 (by decide)).1 (by decide) (by decide)

/-- C1, witness for the amended theorem at fuel 1: the very first iteration
faults with `SystemExit`. -/
theorem c1_hlt_exits_process_witness :
    haltCPU.run 1 = .fault .systemExit haltCPU ∧ haltCPU.pc = 0 :=
  c1_hlt_exits_process 0
